import Mathlib

/-!
# Terminal music player (`music_player2.cpp`): embedding and properties

The C++ class `MusicPlayer` is embedded as a record of its six data members
together with the two pieces of the environment its methods read and write:
the content of `last_track.txt` and the lines printed on standard output.
Methods become functions on that record.  Arithmetic on `int` and `size_t`
is carried out on `Int`/`Nat` with the conversions of the C++ expressions
written out (`toSizeT`, `toCInt`); evaluations that C++ leaves undefined
(integer division by zero, signed overflow, indexing past the end of a
vector) end the run with a `Fault`.

The `float` volume is kept abstract: the type `F` of volume values is a
parameter of the record, and the two operations the command loop performs on
it (`+ 10`, `- 10`) are supplied through `FloatOps`.
-/

namespace MusicPlayerSpec

/-! ## Machine integers -/

/-- Largest value of a C++ `int` (32 bit). -/
def INT_MAX : Int := 2147483647

/-- Smallest value of a C++ `int` (32 bit). -/
def INT_MIN : Int := -2147483648

/-- Number of values of `size_t` (64 bit): `2^64`. -/
def SIZE_MOD : Nat := 18446744073709551616

/-- Number of values of `int`: `2^32`. -/
def INT_MOD : Nat := 4294967296

/-- The integer is a value of the C++ type `int`. -/
def IsCInt (z : Int) : Prop := INT_MIN ≤ z ∧ z ≤ INT_MAX

instance (z : Int) : Decidable (IsCInt z) := by
  unfold IsCInt; exact inferInstance

/-- Conversion `int → size_t` (value modulo `2^64`), as applied by the usual
arithmetic conversions when an `int` meets `playlist.size()`. -/
def toSizeT (z : Int) : Nat := (z % (SIZE_MOD : Int)).toNat

/-- Conversion `size_t → int` on assignment to `currentTrack`: the low 32 bits
read in two's complement. -/
def toCInt (n : Nat) : Int :=
  if n % INT_MOD < 2147483648 then ((n % INT_MOD : Nat) : Int)
  else ((n % INT_MOD : Nat) : Int) - (INT_MOD : Int)

/-- Evaluations with no defined result in C++; each ends the run. -/
inductive Fault where
  | divisionByZero
  | signedOverflow
  | outOfBounds
  deriving DecidableEq, Repr

/-- Addition `a + b` in the type `int`; overflow is undefined. -/
def intAdd (a b : Int) : Except Fault Int :=
  if IsCInt (a + b) then .ok (a + b) else .error .signedOverflow

/-- Remainder `a % b` in the type `size_t`; a zero divisor is undefined. -/
def sizeMod (a b : Nat) : Except Fault Nat :=
  if b = 0 then .error .divisionByZero else .ok (a % b)

/-! ## The audio engine `sf::Music` -/

/-- Values of `sf::Music::Status`. -/
inductive Status where
  | Stopped
  | Paused
  | Playing
  deriving DecidableEq, Repr

/-- Modelled from the spec: the external audio engine (`sf::Music`), which is
a library and not part of the sources.  It holds at most one opened stream,
a status following the state machine of section 4.3, and an output gain. -/
structure Music (F : Type) where
  loaded : Option String
  status : Status
  volume : Option F
  deriving DecidableEq, Repr

namespace Music

/-- Engine at construction: nothing opened, stopped, gain never set. -/
def init {F : Type} : Music F := { loaded := none, status := .Stopped, volume := none }

/-- Call `openFromFile(path)`: when the file opens it replaces the stream
loaded before and the engine is stopped on it; when it does not, the
playback state is unchanged.  The returned flag is the result of the call. -/
def openFromFile {F : Type} (m : Music F) (path : String) (opens : Bool) : Music F × Bool :=
  if opens then ({ m with loaded := some path, status := .Stopped }, true)
  else (m, false)

/-- Call `play()`: Stopped or Paused become Playing when a stream is loaded. -/
def play {F : Type} (m : Music F) : Music F :=
  match m.loaded with
  | none => m
  | some _ => { m with status := .Playing }

/-- Call `pause()`: Playing becomes Paused. -/
def pause {F : Type} (m : Music F) : Music F :=
  if m.status = .Playing then { m with status := .Paused } else m

/-- Call `stop()`: the status becomes Stopped. -/
def stop {F : Type} (m : Music F) : Music F := { m with status := .Stopped }

/-- Call `setVolume(v)`. -/
def setVolume {F : Type} (m : Music F) (v : F) : Music F := { m with volume := some v }

/-- Call `getStatus()`. -/
def getStatus {F : Type} (m : Music F) : Status := m.status

/-- External transition: the stream ran to its end, Playing becomes Stopped. -/
def streamEnded {F : Type} (m : Music F) : Music F :=
  if m.status = .Playing then { m with status := .Stopped } else m

end Music

/-! ## Output lines and the player record -/

/-- Lines written to `std::cout`, one constructor per format. -/
inductive Msg (F : Type) where
  | invalidTrackIndex
  | errorLoadingTrack
  | playing (path : String)
  | musicPaused
  | resumingMusic
  | musicStopped
  | loopMode (enabled : Bool)
  | shuffleMode (enabled : Bool)
  | volumeSetTo (v : F)
  | invalidKey
  deriving DecidableEq, Repr

/-- Data members of `class MusicPlayer`, followed by the environment the
methods act on: the content of `last_track.txt` (`none` when the file does
not exist) and the lines printed so far. -/
structure MusicPlayer (F : Type) where
  playlist : List String
  music : Music F
  currentTrack : Int
  loop : Bool
  shuffle : Bool
  volume : F
  lastTrackFile : Option (List Char)
  console : List (Msg F)
  deriving DecidableEq, Repr

/-- What becomes of `last_track.txt` when `saveLastTrack` runs.  The
`std::ofstream` is never tested, so every failure is silent: `written`, the
file holds the new text; `notOpened`, the file cannot be opened for writing
and stays as it was; `truncated`, opening empties the file and the text does
not reach it. -/
inductive WriteOutcome where
  | written
  | notOpened
  | truncated
  deriving DecidableEq, Repr

/-- The state file after one attempt to store `text` over `old`. -/
def WriteOutcome.store (w : WriteOutcome) (old : Option (List Char)) (text : List Char) :
    Option (List Char) :=
  match w with
  | .written => some text
  | .notOpened => old
  | .truncated => some []

/-- What the environment answers during one method call: whether
`openFromFile` succeeds, the value returned by `rand()` (an `int` between 0
and `RAND_MAX`), whether the stream ran to its end since the previous call,
and what becomes of the state file if it is written. -/
structure Env where
  loadOk : Bool
  rand : Fin 2147483648
  ended : Bool
  write : WriteOutcome
  deriving DecidableEq, Repr

/-- The two operations the command loop applies to the `float` volume, and
the constant `50.0f` of the constructor. -/
structure FloatOps (F : Type) where
  fifty : F
  addTen : F → F
  subTen : F → F

/-- Exact arithmetic on whole numbers, an instance used to run the model. -/
def wholeVolume : FloatOps Int := { fifty := 50, addTen := fun v => v + 10, subTen := fun v => v - 10 }

/-- One entry of the scanned directory: its path and `path().extension()`. -/
structure DirEntry where
  path : String
  extension : String
  deriving DecidableEq, Repr

/-! ## Text form of the persisted index -/

/-- Character of the decimal digit `d`. -/
def digitChar (d : Nat) : Char := Char.ofNat (48 + d)

/-- Decimal text of a natural number, most significant digit first. -/
def natDecimal (n : Nat) : List Char :=
  if n < 10 then [digitChar n] else natDecimal (n / 10) ++ [digitChar (n % 10)]
termination_by n
decreasing_by omega

/-- Text written by `file << currentTrack` for an `int`. -/
def intDecimal (z : Int) : List Char :=
  if z < 0 then '-' :: natDecimal z.natAbs else natDecimal z.toNat

/-- Whitespace skipped by a formatted extraction in the "C" locale. -/
def isSpace (c : Char) : Bool :=
  c = ' ' || c = '\t' || c = '\n' || c = '\x0b' || c = '\x0c' || c = '\r'

/-- Value of a decimal digit character. -/
def digitVal (c : Char) : Nat := c.toNat - 48

/-- Value of a run of decimal digits. -/
def digitsValue (ds : List Char) : Nat := ds.foldl (fun a c => 10 * a + digitVal c) 0

/-- Out-of-range results of an extraction are replaced by the nearest `int`. -/
def clampInt (z : Int) : Int :=
  if z < INT_MIN then INT_MIN else if INT_MAX < z then INT_MAX else z

/-- Formatted extraction `file >> currentTrack` on the content of an opened
file, as `std::istream::operator>>(int&)` is specified from C++11 on (the
program needs C++17 for `std::filesystem`).  `none`: the end of the file is
met while skipping whitespace, the extraction is not attempted and the
variable keeps its value.  `some v`: `v` is stored; it is `0` when no digit
follows the optional sign (the stream's fail bit is set, which the program
never inspects), and the clamped value of the digits otherwise. -/
def extractInt (content : List Char) : Option Int :=
  match content.dropWhile isSpace with
  | [] => none
  | c :: rest =>
    let negative := c = '-'
    let body := if c = '-' ∨ c = '+' then rest else c :: rest
    let ds := body.takeWhile Char.isDigit
    if ds = [] then some 0
    else if negative then some (clampInt (-(digitsValue ds : Int)))
    else some (clampInt (digitsValue ds : Int))

namespace MusicPlayer

variable {F : Type}

/-- Value of `playlist.size()`. -/
def size (p : MusicPlayer F) : Nat := p.playlist.length

/-- Method `loadTracksFromDirectory`: appends the path of every entry whose
extension is `.mp3`, in iteration order. -/
def loadTracksFromDirectory (p : MusicPlayer F) (entries : List DirEntry) : MusicPlayer F :=
  { p with playlist := p.playlist ++ (entries.filter (fun e => e.extension = ".mp3")).map (fun e => e.path) }

/-- Method `saveLastTrack`: opens the state file for writing and sends it the
text of `currentTrack`, without testing the stream; `write` is what the file
system makes of it. -/
def saveLastTrack (p : MusicPlayer F) (write : WriteOutcome) : MusicPlayer F :=
  { p with lastTrackFile := write.store p.lastTrackFile (intDecimal p.currentTrack) }

/-- Method `loadLastTrack`: when the file opens, extracts an `int` into
`currentTrack`. -/
def loadLastTrack (p : MusicPlayer F) : MusicPlayer F :=
  match p.lastTrackFile with
  | none => p
  | some content =>
    match extractInt content with
    | none => p
    | some v => { p with currentTrack := v }

/-- Constructor `MusicPlayer()` run in a working directory with the given
entries and state file, on a console showing `console`. -/
def new (ops : FloatOps F) (entries : List DirEntry) (file : Option (List Char))
    (console : List (Msg F)) : MusicPlayer F :=
  loadLastTrack (loadTracksFromDirectory
    { playlist := [], music := Music.init, currentTrack := -1, loop := false, shuffle := false,
      volume := ops.fifty, lastTrackFile := file, console := console } entries)

/-- Method `play(trackIndex)`; `loadOk` is the result of `openFromFile` and
`write` the outcome of the write in `saveLastTrack`. -/
def play (p : MusicPlayer F) (trackIndex : Int) (loadOk : Bool) (write : WriteOutcome) :
    Except Fault (MusicPlayer F) :=
  if trackIndex < 0 ∨ toSizeT trackIndex ≥ p.size then
    .ok { p with console := p.console ++ [Msg.invalidTrackIndex] }
  else
    match p.playlist[toSizeT trackIndex]? with
    | none => .error .outOfBounds
    | some path =>
      let opened := p.music.openFromFile path loadOk
      if opened.2 = false then
        .ok { p with music := opened.1, console := p.console ++ [Msg.errorLoadingTrack] }
      else
        let p1 := saveLastTrack { p with music := opened.1, currentTrack := trackIndex } write
        .ok { p1 with music := (p1.music.setVolume p1.volume).play,
                      console := p1.console ++ [Msg.playing path] }

/-- Method `pause()`. -/
def pause (p : MusicPlayer F) : MusicPlayer F :=
  if p.music.getStatus = .Playing then
    { p with music := p.music.pause, console := p.console ++ [Msg.musicPaused] }
  else p

/-- Method `resume()`. -/
def resume (p : MusicPlayer F) : MusicPlayer F :=
  if p.music.getStatus = .Paused then
    { p with music := p.music.play, console := p.console ++ [Msg.resumingMusic] }
  else p

/-- Method `stop()`. -/
def stop (p : MusicPlayer F) : MusicPlayer F :=
  { p with music := p.music.stop, console := p.console ++ [Msg.musicStopped] }

/-- Method `next()`: `currentTrack` is assigned first, then `play` is called
on it. -/
def next (p : MusicPlayer F) (env : Env) : Except Fault (MusicPlayer F) :=
  if p.shuffle then
    match sizeMod (toSizeT (env.rand.val : Int)) p.size with
    | .error e => .error e
    | .ok r => play { p with currentTrack := toCInt r } (toCInt r) env.loadOk env.write
  else
    match intAdd p.currentTrack 1 with
    | .error e => .error e
    | .ok s =>
      match sizeMod (toSizeT s) p.size with
      | .error e => .error e
      | .ok r => play { p with currentTrack := toCInt r } (toCInt r) env.loadOk env.write

/-- Method `previous()`: `currentTrack - 1` is an `int`, the sum with
`playlist.size()` and the remainder are `size_t`. -/
def previous (p : MusicPlayer F) (env : Env) : Except Fault (MusicPlayer F) :=
  match intAdd p.currentTrack (-1) with
  | .error e => .error e
  | .ok d =>
    match sizeMod ((toSizeT d + p.size) % SIZE_MOD) p.size with
    | .error e => .error e
    | .ok r => play { p with currentTrack := toCInt r } (toCInt r) env.loadOk env.write

/-- Method `toggleLoop()`. -/
def toggleLoop (p : MusicPlayer F) : MusicPlayer F :=
  { p with loop := !p.loop, console := p.console ++ [Msg.loopMode (!p.loop)] }

/-- Method `toggleShuffle()`. -/
def toggleShuffle (p : MusicPlayer F) : MusicPlayer F :=
  { p with shuffle := !p.shuffle, console := p.console ++ [Msg.shuffleMode (!p.shuffle)] }

/-- Method `setVolume(newVolume)`. -/
def setVolume (p : MusicPlayer F) (newVolume : F) : MusicPlayer F :=
  { p with volume := newVolume, music := p.music.setVolume newVolume,
           console := p.console ++ [Msg.volumeSetTo newVolume] }

/-- Method `getVolume()`. -/
def getVolume (p : MusicPlayer F) : F := p.volume

/-- The stream may run to its end between two calls. -/
def tick (p : MusicPlayer F) (env : Env) : MusicPlayer F :=
  if env.ended then { p with music := p.music.streamEnded } else p

end MusicPlayer

/-! ## Calls on the public interface -/

/-- One call of a public method that changes the player. -/
inductive Op (F : Type) where
  | play (trackIndex : Int)
  | pause
  | resume
  | stop
  | next
  | previous
  | toggleLoop
  | toggleShuffle
  | setVolume (newVolume : F)
  deriving DecidableEq, Repr

/-- The argument of the call is a value of its C++ parameter type. -/
def Op.WellTyped {F : Type} : Op F → Prop
  | .play trackIndex => IsCInt trackIndex
  | _ => True

instance {F : Type} (op : Op F) : Decidable op.WellTyped := by
  cases op <;> unfold Op.WellTyped <;> exact inferInstance

/-- Effect of one call. -/
def applyOp {F : Type} (p : MusicPlayer F) (op : Op F) (env : Env) : Except Fault (MusicPlayer F) :=
  match op with
  | .play trackIndex => p.play trackIndex env.loadOk env.write
  | .pause => .ok p.pause
  | .resume => .ok p.resume
  | .stop => .ok p.stop
  | .next => p.next env
  | .previous => p.previous env
  | .toggleLoop => .ok p.toggleLoop
  | .toggleShuffle => .ok p.toggleShuffle
  | .setVolume v => .ok (p.setVolume v)

/-- A sequence of calls, each with what the environment does meanwhile. -/
def runOps {F : Type} : List (Op F × Env) → MusicPlayer F → Except Fault (MusicPlayer F)
  | [], p => .ok p
  | (op, env) :: rest, p =>
    match applyOp (p.tick env) op env with
    | .error e => .error e
    | .ok p1 => runOps rest p1

/-! ## The command loop of `main` -/

/-- Body of the `switch` for a key other than `Q`/`q`. -/
def dispatch {F : Type} (ops : FloatOps F) (p : MusicPlayer F) (command : Char) (env : Env) :
    Except Fault (MusicPlayer F) :=
  if command = 'P' ∨ command = 'p' then .ok p.pause
  else if command = 'R' ∨ command = 'r' then .ok p.resume
  else if command = 'N' ∨ command = 'n' then p.next env
  else if command = 'B' ∨ command = 'b' then p.previous env
  else if command = 'L' ∨ command = 'l' then .ok p.toggleLoop
  else if command = 'S' ∨ command = 's' then .ok p.toggleShuffle
  else if command = '+' then .ok (p.setVolume (ops.addTen p.getVolume))
  else if command = '-' then .ok (p.setVolume (ops.subTen p.getVolume))
  else .ok { p with console := p.console ++ [Msg.invalidKey] }

/-- The `while (true)` loop of `main` fed with the given key presses; `Q` or
`q` returns at once, and the loop is observed when the keys run out. -/
def mainLoop {F : Type} (ops : FloatOps F) : List (Char × Env) → MusicPlayer F →
    Except Fault (MusicPlayer F)
  | [], p => .ok p
  | (command, env) :: rest, p =>
    if command = 'Q' ∨ command = 'q' then .ok (p.tick env)
    else
      match dispatch ops (p.tick env) command env with
      | .error e => .error e
      | .ok p1 => mainLoop ops rest p1

/-! ## Relations used to state the properties -/

/-- The current index designates a track of the catalog. -/
def MusicPlayer.InCatalog {F : Type} (p : MusicPlayer F) : Prop :=
  0 ≤ p.currentTrack ∧ p.currentTrack < (p.size : Int)

/-- The line is not a "Loop mode: ..." line. -/
def notLoopLine {F : Type} : Msg F → Bool
  | .loopMode _ => false
  | _ => true

/-- Two players agree on the playlist, the engine (loaded stream, playback
status, gain), `currentTrack`, the shuffle flag, the volume, the state file,
and on the printed lines other than the "Loop mode" ones.  Only the loop
flag and the "Loop mode" lines are left free. -/
def LoopBlind {F : Type} (p q : MusicPlayer F) : Prop :=
  p.playlist = q.playlist ∧ p.music = q.music ∧ p.currentTrack = q.currentTrack ∧
    p.shuffle = q.shuffle ∧ p.volume = q.volume ∧ p.lastTrackFile = q.lastTrackFile ∧
    p.console.filter notLoopLine = q.console.filter notLoopLine

/-- Two runs end alike: both with the same fault, or both normally in states
related by `LoopBlind`. -/
def SameOutcome {F : Type} :
    Except Fault (MusicPlayer F) → Except Fault (MusicPlayer F) → Prop
  | .ok p, .ok q => LoopBlind p q
  | .error e1, .error e2 => e1 = e2
  | _, _ => False

/-! ## Concrete players -/

/-- Player on five tracks positioned on the last one. -/
def fiveTracks : MusicPlayer Int :=
  { playlist := ["a.mp3", "b.mp3", "c.mp3", "d.mp3", "e.mp3"], music := Music.init,
    currentTrack := 4, loop := false, shuffle := false, volume := 50,
    lastTrackFile := none, console := [] }

/-- Player on a catalog of `n` tracks positioned on `cur`, nothing played yet. -/
def bulkPlayer (n : Nat) (cur : Int) : MusicPlayer Int :=
  { playlist := List.replicate n "t.mp3", music := Music.init,
    currentTrack := cur, loop := false, shuffle := false, volume := 50,
    lastTrackFile := none, console := [] }

/-- Environment in which every load succeeds and no stream ends. -/
def calmEnv : Env := { loadOk := true, rand := 0, ended := false, write := .written }

/-- Environment in which the load fails. -/
def brokenEnv : Env := { loadOk := false, rand := 0, ended := false, write := .written }

/-! ## Facts about the conversions -/

theorem toSizeT_of_nonneg (z : Int) (h0 : 0 ≤ z) (h1 : z < 18446744073709551616) :
    toSizeT z = z.toNat := by
  unfold toSizeT SIZE_MOD
  have h : z % ((18446744073709551616 : Nat) : Int) = z := Int.emod_eq_of_lt h0 (by simpa using h1)
  rw [h]

theorem toSizeT_of_neg (z : Int) (h0 : z < 0) (h1 : -18446744073709551616 ≤ z) :
    toSizeT z = (z + 18446744073709551616).toNat := by
  unfold toSizeT SIZE_MOD
  have h : z % ((18446744073709551616 : Nat) : Int) = z + 18446744073709551616 := by
    have : (z + 18446744073709551616) % ((18446744073709551616 : Nat) : Int)
        = z + 18446744073709551616 := Int.emod_eq_of_lt (by omega) (by push_cast; omega)
    rw [← this]; push_cast; simp
  rw [h]

theorem toCInt_of_lt (n : Nat) (h : n < 2147483648) : toCInt n = (n : Int) := by
  unfold toCInt INT_MOD
  have h1 : n % 4294967296 = n := Nat.mod_eq_of_lt (by omega)
  rw [h1, if_pos h]

theorem toCInt_of_ge (n : Nat) (h0 : 2147483648 ≤ n) (h1 : n < 4294967296) :
    toCInt n = (n : Int) - 4294967296 := by
  unfold toCInt INT_MOD
  have h2 : n % 4294967296 = n := Nat.mod_eq_of_lt h1
  rw [h2, if_neg (by omega)]
  rfl

/-! ## Facts about `play` -/

namespace MusicPlayer

variable {F : Type}

theorem play_invalid (p : MusicPlayer F) (trackIndex : Int) (loadOk : Bool)
    (write : WriteOutcome) (hint : IsCInt trackIndex)
    (h : trackIndex < 0 ∨ (p.size : Int) ≤ trackIndex) :
    p.play trackIndex loadOk write
      = .ok { p with console := p.console ++ [Msg.invalidTrackIndex] } := by
  unfold play
  have hc : trackIndex < 0 ∨ toSizeT trackIndex ≥ p.size := by
    rcases h with h | h
    · exact Or.inl h
    · by_cases hneg : trackIndex < 0
      · exact Or.inl hneg
      · right
        have hi := hint.2
        unfold INT_MAX at hi
        rw [toSizeT_of_nonneg trackIndex (by omega) (by omega)]
        omega
  rw [if_pos hc]

theorem play_valid (p : MusicPlayer F) (trackIndex : Int) (loadOk : Bool)
    (write : WriteOutcome) (h0 : 0 ≤ trackIndex) (h1 : trackIndex < (p.size : Int)) (hint : trackIndex ≤ INT_MAX) :
    ∃ path, p.playlist[trackIndex.toNat]? = some path ∧
      p.play trackIndex loadOk write =
        if loadOk = true then
          .ok { p with
            music := { loaded := some path, status := .Playing, volume := some p.volume },
            currentTrack := trackIndex,
            lastTrackFile := write.store p.lastTrackFile (intDecimal trackIndex),
            console := p.console ++ [Msg.playing path] }
        else
          .ok { p with console := p.console ++ [Msg.errorLoadingTrack] } := by
  unfold INT_MAX at hint
  have hs : toSizeT trackIndex = trackIndex.toNat :=
    toSizeT_of_nonneg trackIndex h0 (by omega)
  have hlt : trackIndex.toNat < p.playlist.length := by
    unfold size at h1; omega
  refine ⟨p.playlist[trackIndex.toNat], List.getElem?_eq_getElem hlt, ?_⟩
  unfold play
  have hc : ¬ (trackIndex < 0 ∨ toSizeT trackIndex ≥ p.size) := by
    rw [hs]; unfold size; omega
  rw [if_neg hc, hs, List.getElem?_eq_getElem hlt]
  cases loadOk <;>
    simp [Music.openFromFile, saveLastTrack, Music.setVolume, Music.play]

/-- Value assigned by `next()` without shuffle when `currentTrack + 1` does not
overflow: the remainder of `currentTrack + 1` by the size. -/
theorem next_value (cur : Int) (n : Nat) (h0 : 0 ≤ cur) (hn : 0 < n) (hmax : cur + 1 ≤ INT_MAX) :
    intAdd cur 1 = .ok (cur + 1) ∧ sizeMod (toSizeT (cur + 1)) n = .ok ((cur + 1).toNat % n) ∧
      toCInt ((cur + 1).toNat % n) = (cur + 1) % (n : Int) := by
  unfold INT_MAX at hmax
  refine ⟨?_, ?_, ?_⟩
  · unfold intAdd IsCInt INT_MIN INT_MAX
    rw [if_pos (by constructor <;> omega)]
  · unfold sizeMod
    rw [if_neg (by omega), toSizeT_of_nonneg (cur + 1) (by omega) (by omega)]
  · have hle : (cur + 1).toNat % n ≤ (cur + 1).toNat := Nat.mod_le _ _
    rw [toCInt_of_lt _ (by omega), Int.natCast_mod, Int.toNat_of_nonneg (by omega)]

/-- The `size_t` sum `(currentTrack - 1) + playlist.size()`, reduced modulo
`2^64`, is the mathematical sum whenever that sum is a `size_t`. -/
theorem wrapped_sum (d : Int) (n : Nat) (hd : -18446744073709551616 ≤ d)
    (h0 : 0 ≤ d + n) (h1 : d + n < 18446744073709551616) :
    (toSizeT d + n) % SIZE_MOD = (d + n).toNat := by
  unfold SIZE_MOD
  by_cases hc : 0 ≤ d
  · rw [toSizeT_of_nonneg d hc (by omega)]
    omega
  · rw [toSizeT_of_neg d (by omega) hd]
    omega

/-- Value assigned by `previous()` from an `int` index of the catalog, when
the remainder is an `int`: always from an index `i ≥ 1`, and from index 0 on
a catalog of at most `2^31` tracks.  The catalog, a `std::vector`, holds
fewer than `2^63` elements. -/
theorem previous_value (cur : Int) (n : Nat) (h0 : 0 ≤ cur) (hlt : cur < (n : Int))
    (hint : cur ≤ INT_MAX) (hsize : n < 9223372036854775808)
    (hzero : cur = 0 → n ≤ 2147483648) :
    intAdd cur (-1) = .ok (cur - 1) ∧
      sizeMod ((toSizeT (cur - 1) + n) % SIZE_MOD) n = .ok ((cur - 1 + (n : Int)).toNat % n) ∧
      toCInt ((cur - 1 + (n : Int)).toNat % n) = (cur - 1 + (n : Int)) % (n : Int) ∧
      (cur - 1 + (n : Int)) % (n : Int) ≤ INT_MAX := by
  unfold INT_MAX at hint
  have hr : (cur - 1 + (n : Int)).toNat % n < 2147483648 := by
    by_cases hc : cur = 0
    · have hle : (cur - 1 + (n : Int)).toNat % n ≤ (cur - 1 + (n : Int)).toNat := Nat.mod_le _ _
      have := hzero hc
      omega
    · have hsum : (cur - 1 + (n : Int)).toNat = (cur - 1).toNat + n := by omega
      rw [hsum, Nat.add_mod_right, Nat.mod_eq_of_lt (by omega)]
      omega
  have hcast : (((cur - 1 + (n : Int)).toNat % n : Nat) : Int) = (cur - 1 + (n : Int)) % (n : Int) := by
    rw [Int.natCast_mod, Int.toNat_of_nonneg (by omega)]
  refine ⟨?_, ?_, ?_, ?_⟩
  · unfold intAdd IsCInt INT_MIN INT_MAX
    rw [if_pos (by constructor <;> omega)]
    rfl
  · unfold sizeMod
    rw [if_neg (by omega), wrapped_sum (cur - 1) n (by omega) (by omega) (by omega)]
  · rw [toCInt_of_lt _ hr, hcast]
  · unfold INT_MAX
    rw [← hcast]
    omega

/-- Without shuffle and without overflow `next()` is `play` on the successor
index, called on a player whose `currentTrack` is already that index. -/
theorem next_eq_play (p : MusicPlayer F) (env : Env) (hshuffle : p.shuffle = false)
    (h0 : 0 ≤ p.currentTrack) (hn : 0 < p.size) (hmax : p.currentTrack + 1 ≤ INT_MAX) :
    p.next env =
      play { p with currentTrack := (p.currentTrack + 1) % (p.size : Int) }
        ((p.currentTrack + 1) % (p.size : Int)) env.loadOk env.write := by
  obtain ⟨ha, hm, hc⟩ := next_value p.currentTrack p.size h0 hn hmax
  unfold next
  rw [hshuffle]
  simp only [Bool.false_eq_true, if_false, ha, hm, hc]

/-- Whenever the remainder is an `int`, `previous()` is `play` on the
predecessor index, called on a player whose `currentTrack` is already that
index. -/
theorem previous_eq_play (p : MusicPlayer F) (env : Env) (h0 : 0 ≤ p.currentTrack)
    (hlt : p.currentTrack < (p.size : Int)) (hint : p.currentTrack ≤ INT_MAX)
    (hsize : p.size < 9223372036854775808) (hzero : p.currentTrack = 0 → p.size ≤ 2147483648) :
    p.previous env =
      play { p with currentTrack := (p.currentTrack - 1 + (p.size : Int)) % (p.size : Int) }
        ((p.currentTrack - 1 + (p.size : Int)) % (p.size : Int)) env.loadOk env.write := by
  obtain ⟨ha, hm, hc, -⟩ := previous_value p.currentTrack p.size h0 hlt hint hsize hzero
  unfold previous
  simp only [ha, hm, hc]

/-- With shuffle on a non-empty catalog `next()` is `play` on `rand() % size`. -/
theorem next_shuffle_eq_play (p : MusicPlayer F) (env : Env) (hshuffle : p.shuffle = true)
    (hn : 0 < p.size) :
    p.next env =
      play { p with currentTrack := ((env.rand.val % p.size : Nat) : Int) }
        ((env.rand.val % p.size : Nat) : Int) env.loadOk env.write := by
  have hr : env.rand.val < 2147483648 := env.rand.isLt
  have hle : env.rand.val % p.size ≤ env.rand.val := Nat.mod_le _ _
  have hs : toSizeT (env.rand.val : Int) = env.rand.val := by
    rw [toSizeT_of_nonneg _ (by omega) (by omega)]; rfl
  have hc : toCInt (env.rand.val % p.size) = ((env.rand.val % p.size : Nat) : Int) :=
    toCInt_of_lt _ (by omega)
  unfold next sizeMod
  rw [hshuffle, hs]
  simp only [if_true, if_neg (Nat.pos_iff_ne_zero.mp hn), hc]

/-! ## Sequential `next()` -/

/-- C1 (amended): with shuffle disabled, a current index `i` of the catalog
(`0 ≤ i < N`) such that `i + 1` is still an `int` (`i + 1 ≤ INT_MAX`, which
always holds when `N ≤ INT_MAX`), and a track load that succeeds, `next()`
returns, leaves `currentTrack` equal to `(i + 1) mod N`, and the engine is
playing the track at that position, announced on the console. -/
theorem next_sequential_index (p : MusicPlayer F) (env : Env)
    (hshuffle : p.shuffle = false) (h0 : 0 ≤ p.currentTrack)
    (hlt : p.currentTrack < (p.size : Int)) (hmax : p.currentTrack + 1 ≤ INT_MAX)
    (hload : env.loadOk = true) :
    ∃ p1 path, p.next env = .ok p1 ∧
      p1.currentTrack = (p.currentTrack + 1) % (p.size : Int) ∧
      p.playlist[((p.currentTrack + 1) % (p.size : Int)).toNat]? = some path ∧
      p1.music.loaded = some path ∧ p1.music.status = Status.Playing ∧
      p1.console = p.console ++ [Msg.playing path] := by
  have hn : 0 < p.size := by omega
  have hr0 : 0 ≤ (p.currentTrack + 1) % (p.size : Int) := Int.emod_nonneg _ (by omega)
  have hr1 : (p.currentTrack + 1) % (p.size : Int) < (p.size : Int) :=
    Int.emod_lt_of_pos _ (by omega)
  have hr2 : (p.currentTrack + 1) % (p.size : Int) ≤ INT_MAX := by
    have h1 : (p.currentTrack + 1).toNat % p.size ≤ (p.currentTrack + 1).toNat := Nat.mod_le _ _
    have h2 : (((p.currentTrack + 1).toNat % p.size : Nat) : Int)
        = (p.currentTrack + 1) % (p.size : Int) := by
      rw [Int.natCast_mod, Int.toNat_of_nonneg (by omega)]
    omega
  obtain ⟨path, hpath, hplay⟩ :=
    play_valid { p with currentTrack := (p.currentTrack + 1) % (p.size : Int) }
      ((p.currentTrack + 1) % (p.size : Int)) env.loadOk env.write hr0 hr1 hr2
  rw [hload, if_pos rfl] at hplay
  rw [next_eq_play p env hshuffle h0 hn hmax, hload, hplay]
  exact ⟨_, path, rfl, rfl, hpath, rfl, rfl, rfl⟩

/-- C1, the instance `N = 5`, `i = 4` of `next_sequential_index`: the index
wraps to `(4 + 1) mod 5`. -/
theorem next_sequential_index_witness :
    ∃ p1 path, fiveTracks.next calmEnv = .ok p1 ∧
      p1.currentTrack = (fiveTracks.currentTrack + 1) % (fiveTracks.size : Int) ∧
      fiveTracks.playlist[((fiveTracks.currentTrack + 1) % (fiveTracks.size : Int)).toNat]?
        = some path ∧
      p1.music.loaded = some path ∧ p1.music.status = Status.Playing ∧
      p1.console = fiveTracks.console ++ [Msg.playing path] :=
  next_sequential_index fiveTracks calmEnv rfl (by decide) (by decide) (by decide) rfl

theorem size_bulkPlayer (n : Nat) (cur : Int) : (bulkPlayer n cur).size = n := by
  simp [size, bulkPlayer]

theorem currentTrack_bulkPlayer (n : Nat) (cur : Int) : (bulkPlayer n cur).currentTrack = cur := rfl

theorem shuffle_bulkPlayer (n : Nat) (cur : Int) : (bulkPlayer n cur).shuffle = false := rfl

/-- C1 as stated fails on a catalog of `2^31 + 1` tracks at index
`i = INT_MAX`: the index is in the catalog and shuffle is off, yet `next()`
evaluates `currentTrack + 1` past `INT_MAX` and no run ends with
`currentTrack = (i + 1) mod N`. -/
theorem next_overflows_at_INT_MAX :
    (bulkPlayer 2147483649 2147483647).shuffle = false ∧
      0 ≤ (bulkPlayer 2147483649 2147483647).currentTrack ∧
      (bulkPlayer 2147483649 2147483647).currentTrack
        < ((bulkPlayer 2147483649 2147483647).size : Int) ∧
      (bulkPlayer 2147483649 2147483647).next calmEnv = .error Fault.signedOverflow ∧
      ¬ ∃ p1, (bulkPlayer 2147483649 2147483647).next calmEnv = .ok p1 ∧
          p1.currentTrack = ((bulkPlayer 2147483649 2147483647).currentTrack + 1)
            % ((bulkPlayer 2147483649 2147483647).size : Int) := by
  have hnext : (bulkPlayer 2147483649 2147483647).next calmEnv = .error Fault.signedOverflow := by
    unfold next
    rw [shuffle_bulkPlayer, currentTrack_bulkPlayer]
    simp [intAdd, IsCInt, INT_MIN, INT_MAX]
  refine ⟨rfl, ?_, ?_, hnext, ?_⟩
  · rw [currentTrack_bulkPlayer]; omega
  · rw [size_bulkPlayer, currentTrack_bulkPlayer]; omega
  · rintro ⟨p1, h, -⟩
    rw [hnext] at h
    cases h

/-! ## `previous()` -/

/-- C2 (amended): on a catalog of `N > 0` tracks (a `std::vector`, so
`N < 2^63`), from a current `int` index `i` with `0 ≤ i < N`, where for
`i = 0` the catalog has at most `2^31` tracks (so that `N - 1` is an `int`),
and with a load that succeeds, `previous()` returns and leaves `currentTrack`
equal to `(i - 1 + N) mod N`, the value of the C++ expression evaluated with
`currentTrack - 1` converted to `size_t` and the sum taken modulo `2^64`;
from index 0 that is `N - 1`.  The engine then plays the track at that
position. -/
theorem previous_index (p : MusicPlayer F) (env : Env) (h0 : 0 ≤ p.currentTrack)
    (hlt : p.currentTrack < (p.size : Int)) (hint : p.currentTrack ≤ INT_MAX)
    (hsize : p.size < 9223372036854775808)
    (hfirst : p.currentTrack = 0 → p.size ≤ 2147483648)
    (hload : env.loadOk = true) :
    toCInt ((toSizeT (p.currentTrack - 1) + p.size) % SIZE_MOD % p.size)
        = (p.currentTrack - 1 + (p.size : Int)) % (p.size : Int) ∧
    ∃ p1 path, p.previous env = .ok p1 ∧
      p1.currentTrack = (p.currentTrack - 1 + (p.size : Int)) % (p.size : Int) ∧
      (p.currentTrack = 0 → p1.currentTrack = (p.size : Int) - 1) ∧
      p.playlist[((p.currentTrack - 1 + (p.size : Int)) % (p.size : Int)).toNat]? = some path ∧
      p1.music.loaded = some path ∧ p1.music.status = Status.Playing ∧
      p1.console = p.console ++ [Msg.playing path] := by
  have hpos : (0 : Int) < (p.size : Int) := by omega
  obtain ⟨-, hm, hc, hr2⟩ := previous_value p.currentTrack p.size h0 hlt hint hsize hfirst
  have hr0 : 0 ≤ (p.currentTrack - 1 + (p.size : Int)) % (p.size : Int) :=
    Int.emod_nonneg _ (by omega)
  have hr1 : (p.currentTrack - 1 + (p.size : Int)) % (p.size : Int) < (p.size : Int) :=
    Int.emod_lt_of_pos _ hpos
  have hzero : p.currentTrack = 0 →
      (p.currentTrack - 1 + (p.size : Int)) % (p.size : Int) = (p.size : Int) - 1 := by
    intro hz
    rw [hz]
    exact Int.emod_eq_of_lt (by omega) (by omega)
  obtain ⟨path, hpath, hplay⟩ :=
    play_valid { p with currentTrack := (p.currentTrack - 1 + (p.size : Int)) % (p.size : Int) }
      ((p.currentTrack - 1 + (p.size : Int)) % (p.size : Int)) env.loadOk env.write hr0 hr1 hr2
  rw [hload, if_pos rfl] at hplay
  refine ⟨?_, ?_⟩
  · unfold sizeMod at hm
    rw [if_neg (by omega)] at hm
    rw [Except.ok.injEq] at hm
    rw [hm, hc]
  · rw [previous_eq_play p env h0 hlt hint hsize hfirst, hload, hplay]
    exact ⟨_, path, rfl, rfl, hzero, hpath, rfl, rfl, rfl⟩

/-- C2, two instances of `previous_index`: five tracks from index 0, where
`currentTrack - 1 = -1` is converted to `size_t` and the result is the last
index `N - 1`; and `2^31 + 1` tracks from index 1, a catalog on which only
index 0 is excluded. -/
theorem previous_index_witness :
    (toCInt ((toSizeT ((bulkPlayer 5 0).currentTrack - 1) + (bulkPlayer 5 0).size) % SIZE_MOD
          % (bulkPlayer 5 0).size)
        = ((bulkPlayer 5 0).currentTrack - 1 + ((bulkPlayer 5 0).size : Int))
            % ((bulkPlayer 5 0).size : Int) ∧
      ∃ p1 path, (bulkPlayer 5 0).previous calmEnv = .ok p1 ∧
        p1.currentTrack = ((bulkPlayer 5 0).currentTrack - 1 + ((bulkPlayer 5 0).size : Int))
          % ((bulkPlayer 5 0).size : Int) ∧
        ((bulkPlayer 5 0).currentTrack = 0 → p1.currentTrack = ((bulkPlayer 5 0).size : Int) - 1) ∧
        (bulkPlayer 5 0).playlist[(((bulkPlayer 5 0).currentTrack - 1
          + ((bulkPlayer 5 0).size : Int)) % ((bulkPlayer 5 0).size : Int)).toNat]? = some path ∧
        p1.music.loaded = some path ∧ p1.music.status = Status.Playing ∧
        p1.console = (bulkPlayer 5 0).console ++ [Msg.playing path]) ∧
    (toCInt ((toSizeT ((bulkPlayer 2147483649 1).currentTrack - 1)
          + (bulkPlayer 2147483649 1).size) % SIZE_MOD % (bulkPlayer 2147483649 1).size)
        = ((bulkPlayer 2147483649 1).currentTrack - 1 + ((bulkPlayer 2147483649 1).size : Int))
            % ((bulkPlayer 2147483649 1).size : Int) ∧
      ∃ p1 path, (bulkPlayer 2147483649 1).previous calmEnv = .ok p1 ∧
        p1.currentTrack = ((bulkPlayer 2147483649 1).currentTrack - 1
          + ((bulkPlayer 2147483649 1).size : Int)) % ((bulkPlayer 2147483649 1).size : Int) ∧
        ((bulkPlayer 2147483649 1).currentTrack = 0 →
          p1.currentTrack = ((bulkPlayer 2147483649 1).size : Int) - 1) ∧
        (bulkPlayer 2147483649 1).playlist[(((bulkPlayer 2147483649 1).currentTrack - 1
          + ((bulkPlayer 2147483649 1).size : Int))
          % ((bulkPlayer 2147483649 1).size : Int)).toNat]? = some path ∧
        p1.music.loaded = some path ∧ p1.music.status = Status.Playing ∧
        p1.console = (bulkPlayer 2147483649 1).console ++ [Msg.playing path]) :=
  ⟨previous_index (bulkPlayer 5 0) calmEnv (by decide) (by decide) (by decide) (by decide)
      (fun _ => by decide) rfl,
   previous_index (bulkPlayer 2147483649 1) calmEnv (by decide)
      (by rw [size_bulkPlayer, currentTrack_bulkPlayer]; omega) (by decide)
      (by rw [size_bulkPlayer]; omega)
      (fun h => absurd h (by decide)) rfl⟩

/-- What `previous()` does when the remainder it computes is `2^31`: the
assignment to the `int` yields `INT_MIN` and `play` rejects it. -/
theorem previous_narrowed (p : MusicPlayer F) (env : Env) (hcur : IsCInt (p.currentTrack + -1))
    (hr : (toSizeT (p.currentTrack + -1) + p.size) % SIZE_MOD % p.size = 2147483648)
    (hn : p.size ≠ 0) :
    p.previous env =
      .ok { p with currentTrack := -2147483648,
                   console := p.console ++ [Msg.invalidTrackIndex] } := by
  have ha : intAdd p.currentTrack (-1) = .ok (p.currentTrack + -1) := by
    unfold intAdd; rw [if_pos hcur]
  have hm : sizeMod ((toSizeT (p.currentTrack + -1) + p.size) % SIZE_MOD) p.size
      = .ok 2147483648 := by
    unfold sizeMod; rw [if_neg hn, hr]
  have hc : toCInt 2147483648 = -2147483648 := by
    rw [toCInt_of_ge _ (by omega) (by omega)]; rfl
  unfold previous
  simp only [ha, hm, hc]
  unfold play
  rw [if_pos (Or.inl (by omega))]

/-- C2 as stated fails on a catalog of `2^31 + 1` tracks from index 0: the
remainder `N - 1 = 2^31` is not an `int`; `currentTrack` becomes `INT_MIN`
and nothing is played. -/
theorem previous_narrows_past_INT_MAX :
    0 ≤ (bulkPlayer 2147483649 0).currentTrack ∧
      (bulkPlayer 2147483649 0).currentTrack < ((bulkPlayer 2147483649 0).size : Int) ∧
      ∃ p1, (bulkPlayer 2147483649 0).previous calmEnv = .ok p1 ∧
        p1.currentTrack = -2147483648 ∧
        p1.currentTrack ≠ ((bulkPlayer 2147483649 0).currentTrack - 1
            + ((bulkPlayer 2147483649 0).size : Int)) % ((bulkPlayer 2147483649 0).size : Int) ∧
        p1.currentTrack ≠ ((bulkPlayer 2147483649 0).size : Int) - 1 ∧
        p1.console = [Msg.invalidTrackIndex] := by
  have hprev := previous_narrowed (bulkPlayer 2147483649 0) calmEnv (by decide)
    (by rw [size_bulkPlayer, currentTrack_bulkPlayer, toSizeT_of_neg _ (by omega) (by omega)]
        unfold SIZE_MOD; rfl)
    (by rw [size_bulkPlayer]; omega)
  refine ⟨?_, ?_, _, hprev, rfl, ?_, ?_, rfl⟩
  · rw [currentTrack_bulkPlayer]
  · rw [size_bulkPlayer, currentTrack_bulkPlayer]; omega
  · rw [size_bulkPlayer, currentTrack_bulkPlayer]
    show (-2147483648 : Int) ≠ _
    omega
  · rw [size_bulkPlayer]
    show (-2147483648 : Int) ≠ _
    omega

/-- C10 (amended): from a state with no prior index (`currentTrack = -1`) on
a catalog of `N` tracks with `1 ≤ N ≤ 2^31 + 1`, the remainder computed by
`previous()` is `(2^64 - 2 + N) mod 2^64 mod N`, so `previous()` calls `play`
on index `N - 2` when `N ≥ 2` (not on the last track `N - 1`) and on index 0
when `N = 1`; it returns with `currentTrack` equal to that index. -/
theorem previous_from_no_index (p : MusicPlayer F) (env : Env) (hcur : p.currentTrack = -1)
    (hn : 0 < p.size) (hmax : p.size ≤ 2147483649) :
    (toSizeT (p.currentTrack - 1) + p.size) % SIZE_MOD % p.size
        = (18446744073709551614 + p.size) % 18446744073709551616 % p.size ∧
    p.previous env =
      play { p with currentTrack := if p.size = 1 then 0 else (p.size : Int) - 2 }
        (if p.size = 1 then 0 else (p.size : Int) - 2) env.loadOk env.write ∧
    ∃ p1, p.previous env = .ok p1 ∧
      p1.currentTrack = if p.size = 1 then 0 else (p.size : Int) - 2 := by
  have hs : toSizeT (-2) = 18446744073709551614 := by
    rw [toSizeT_of_neg _ (by omega) (by omega)]; rfl
  have hr : (18446744073709551614 + p.size) % 18446744073709551616 % p.size
      = if p.size = 1 then 0 else p.size - 2 := by
    by_cases h1 : p.size = 1
    · rw [if_pos h1, h1]
    · rw [if_neg h1]
      have h2 : (18446744073709551614 + p.size) % 18446744073709551616 = p.size - 2 := by omega
      rw [h2]
      exact Nat.mod_eq_of_lt (by omega)
  have hc : toCInt (if p.size = 1 then 0 else p.size - 2)
      = if p.size = 1 then 0 else (p.size : Int) - 2 := by
    by_cases h1 : p.size = 1
    · rw [if_pos h1, if_pos h1]; rfl
    · rw [if_neg h1, if_neg h1, toCInt_of_lt _ (by omega)]
      omega
  have ha : intAdd p.currentTrack (-1) = .ok (-2) := by
    rw [hcur]; rfl
  have hm : sizeMod ((toSizeT (-2) + p.size) % SIZE_MOD) p.size
      = .ok (if p.size = 1 then 0 else p.size - 2) := by
    unfold sizeMod SIZE_MOD
    rw [if_neg (by omega), hs, hr]
  have hprev : p.previous env =
      play { p with currentTrack := if p.size = 1 then 0 else (p.size : Int) - 2 }
        (if p.size = 1 then 0 else (p.size : Int) - 2) env.loadOk env.write := by
    unfold previous
    simp only [ha, hm, hc]
  have hc0 : (0 : Int) ≤ if p.size = 1 then 0 else (p.size : Int) - 2 := by
    split <;> omega
  have hc1 : (if p.size = 1 then 0 else (p.size : Int) - 2) < (p.size : Int) := by
    split <;> omega
  have hc2 : (if p.size = 1 then 0 else (p.size : Int) - 2) ≤ INT_MAX := by
    unfold INT_MAX; split <;> omega
  obtain ⟨path, -, hplay⟩ :=
    play_valid { p with currentTrack := if p.size = 1 then 0 else (p.size : Int) - 2 }
      (if p.size = 1 then 0 else (p.size : Int) - 2) env.loadOk env.write hc0 hc1 hc2
  refine ⟨?_, hprev, ?_⟩
  · rw [hcur]
    show (toSizeT (-2) + p.size) % SIZE_MOD % p.size = _
    rw [hs]; rfl
  · rw [hprev, hplay]
    cases env.loadOk
    · exact ⟨_, rfl, rfl⟩
    · exact ⟨_, rfl, rfl⟩

/-- C10, an instance of `previous_from_no_index`: three tracks, index `-1`. -/
theorem previous_from_no_index_witness :
    (toSizeT ((bulkPlayer 3 (-1)).currentTrack - 1) + (bulkPlayer 3 (-1)).size) % SIZE_MOD
        % (bulkPlayer 3 (-1)).size
        = (18446744073709551614 + (bulkPlayer 3 (-1)).size) % 18446744073709551616
            % (bulkPlayer 3 (-1)).size ∧
    (bulkPlayer 3 (-1)).previous calmEnv =
      play { bulkPlayer 3 (-1) with
              currentTrack := if (bulkPlayer 3 (-1)).size = 1 then 0
                              else ((bulkPlayer 3 (-1)).size : Int) - 2 }
        (if (bulkPlayer 3 (-1)).size = 1 then 0 else ((bulkPlayer 3 (-1)).size : Int) - 2)
        calmEnv.loadOk calmEnv.write ∧
    ∃ p1, (bulkPlayer 3 (-1)).previous calmEnv = .ok p1 ∧
      p1.currentTrack = if (bulkPlayer 3 (-1)).size = 1 then 0
                        else ((bulkPlayer 3 (-1)).size : Int) - 2 :=
  previous_from_no_index (bulkPlayer 3 (-1)) calmEnv rfl (by decide) (by decide)

/-- C10 as stated fails on a catalog of `2^31 + 2` tracks: the remainder
`N - 2 = 2^31` is not an `int`; `play` is called on `INT_MIN`, rejects it,
and `currentTrack` is left at `INT_MIN`. -/
theorem no_index_previous_narrows_past_INT_MAX :
    (bulkPlayer 2147483650 (-1)).currentTrack = -1 ∧ 2 ≤ (bulkPlayer 2147483650 (-1)).size ∧
      ∃ p1, (bulkPlayer 2147483650 (-1)).previous calmEnv = .ok p1 ∧
        p1.currentTrack = -2147483648 ∧
        p1.currentTrack ≠ ((bulkPlayer 2147483650 (-1)).size : Int) - 2 ∧
        p1.console = [Msg.invalidTrackIndex] := by
  have hprev := previous_narrowed (bulkPlayer 2147483650 (-1)) calmEnv (by decide)
    (by rw [size_bulkPlayer, currentTrack_bulkPlayer, toSizeT_of_neg _ (by omega) (by omega)]
        unfold SIZE_MOD; rfl)
    (by rw [size_bulkPlayer]; omega)
  refine ⟨rfl, ?_, _, hprev, rfl, ?_, rfl⟩
  · rw [size_bulkPlayer]; omega
  · rw [size_bulkPlayer]
    show (-2147483648 : Int) ≠ _
    omega

/-! ## `play` on an index outside the catalog -/

/-- C4: for every catalog of size `N` and every `int` index with `index < 0`
or `index ≥ N`, `play(index)` returns normally (no out-of-bounds access of
the playlist), prints "Invalid track index!", and changes nothing else:
`currentTrack`, the state file and the engine with its loaded stream are as
before. -/
theorem play_out_of_range (p : MusicPlayer F) (trackIndex : Int) (loadOk : Bool)
    (write : WriteOutcome) (hint : IsCInt trackIndex)
    (h : trackIndex < 0 ∨ (p.size : Int) ≤ trackIndex) :
    ∃ p1, p.play trackIndex loadOk write = .ok p1 ∧
      p1.console = p.console ++ [Msg.invalidTrackIndex] ∧
      p1.currentTrack = p.currentTrack ∧ p1.lastTrackFile = p.lastTrackFile ∧
      p1.music = p.music ∧ p1.playlist = p.playlist ∧
      p1 = { p with console := p.console ++ [Msg.invalidTrackIndex] } :=
  ⟨_, play_invalid p trackIndex loadOk write hint h, rfl, rfl, rfl, rfl, rfl, rfl⟩

/-- C4, the instances `index = N` and `index = -1` on five tracks. -/
theorem play_out_of_range_witness :
    (∃ p1, fiveTracks.play 5 true WriteOutcome.written = .ok p1 ∧
      p1.console = fiveTracks.console ++ [Msg.invalidTrackIndex] ∧
      p1.currentTrack = fiveTracks.currentTrack ∧ p1.lastTrackFile = fiveTracks.lastTrackFile ∧
      p1.music = fiveTracks.music ∧ p1.playlist = fiveTracks.playlist ∧
      p1 = { fiveTracks with console := fiveTracks.console ++ [Msg.invalidTrackIndex] }) ∧
    (∃ p1, fiveTracks.play (-1) true WriteOutcome.notOpened = .ok p1 ∧
      p1.console = fiveTracks.console ++ [Msg.invalidTrackIndex] ∧
      p1.currentTrack = fiveTracks.currentTrack ∧ p1.lastTrackFile = fiveTracks.lastTrackFile ∧
      p1.music = fiveTracks.music ∧ p1.playlist = fiveTracks.playlist ∧
      p1 = { fiveTracks with console := fiveTracks.console ++ [Msg.invalidTrackIndex] }) :=
  ⟨play_out_of_range fiveTracks 5 true WriteOutcome.written (by decide) (Or.inr (by decide)),
   play_out_of_range fiveTracks (-1) true WriteOutcome.notOpened (by decide)
     (Or.inl (by decide))⟩

end MusicPlayer

/-! ## The persisted index: writing and reading back -/

namespace MusicPlayer

variable {F : Type}

theorem new_currentTrack_of_extract {G : Type} (ops : FloatOps G) (entries : List DirEntry)
    (content : List Char) (console : List (Msg G)) (v : Int)
    (h : extractInt content = some v) :
    (MusicPlayer.new ops entries (some content) console).currentTrack = v := by
  unfold MusicPlayer.new loadLastTrack loadTracksFromDirectory
  simp only [h]

/-- When the state file is absent, or is empty or holds only whitespace, the
constructor leaves `currentTrack` at its initial value `-1`; the constructed
player is the initial one on the scanned playlist. -/
theorem load_without_prior_state (ops : FloatOps F) (entries : List DirEntry)
    (file : Option (List Char)) (console : List (Msg F))
    (h : file = none ∨ ∃ cs, file = some cs ∧ ∀ c ∈ cs, isSpace c = true) :
    (MusicPlayer.new ops entries file console).currentTrack = -1 ∧
      MusicPlayer.new ops entries file console =
        { playlist := (entries.filter (fun e => e.extension = ".mp3")).map (fun e => e.path),
          music := Music.init, currentTrack := -1, loop := false, shuffle := false,
          volume := ops.fifty, lastTrackFile := file, console := console } := by
  rcases h with h | ⟨cs, h, hsp⟩
  · subst h
    exact ⟨rfl, by simp [MusicPlayer.new, loadLastTrack, loadTracksFromDirectory]⟩
  · subst h
    have hdrop : cs.dropWhile isSpace = [] := List.dropWhile_eq_nil_iff.mpr hsp
    have hex : extractInt cs = none := by
      unfold extractInt; rw [hdrop]
    constructor <;> simp [MusicPlayer.new, loadLastTrack, loadTracksFromDirectory, hex]

/-- C8 (the code departs from it): `loadLastTrack` tests only whether the file
opened, never the extraction.  With the content `abc` the constructor
returns normally but the failed extraction stores `0`, so the player starts
on index 0 instead of "none" (`-1`); the sibling conditions, an absent file
and an empty file, do leave `-1`. -/
theorem load_unparsable_stores_zero (ops : FloatOps F) (entries : List DirEntry)
    (console : List (Msg F)) :
    extractInt ['a', 'b', 'c'] = some 0 ∧
      (MusicPlayer.new ops entries (some ['a', 'b', 'c']) console).currentTrack = 0 ∧
      (MusicPlayer.new ops entries (some ['a', 'b', 'c']) console).currentTrack ≠ -1 ∧
      (MusicPlayer.new ops entries none console).currentTrack = -1 ∧
      (MusicPlayer.new ops entries (some []) console).currentTrack = -1 := by
  have h : extractInt ['a', 'b', 'c'] = some 0 := by decide
  refine ⟨h, new_currentTrack_of_extract ops entries _ console 0 h, ?_,
    (load_without_prior_state ops entries none console (Or.inl rfl)).1,
    (load_without_prior_state ops entries (some []) console
      (Or.inr ⟨[], rfl, fun c hc => absurd hc (List.not_mem_nil c)⟩)).1⟩
  rw [new_currentTrack_of_extract ops entries _ console 0 h]
  decide

/-! ## Empty catalog -/

/-- C3 (the code departs from it): on an empty catalog there is no guard.
Whenever `currentTrack ± 1` is an `int`, `next()` (shuffle on or off) and
`previous()` evaluate a remainder by `playlist.size() = 0` and the run ends
there, before `play` could report anything. -/
theorem empty_catalog_divides_by_zero (p : MusicPlayer F) (env : Env)
    (hempty : p.playlist = []) (hlo : INT_MIN < p.currentTrack)
    (hhi : p.currentTrack < INT_MAX) :
    p.next env = .error Fault.divisionByZero ∧
      p.previous env = .error Fault.divisionByZero := by
  unfold INT_MIN at hlo
  unfold INT_MAX at hhi
  have hsize : p.size = 0 := by unfold size; rw [hempty]; rfl
  have ha : intAdd p.currentTrack 1 = .ok (p.currentTrack + 1) := by
    unfold intAdd IsCInt INT_MIN INT_MAX
    rw [if_pos (by constructor <;> omega)]
  have hb : intAdd p.currentTrack (-1) = .ok (p.currentTrack + -1) := by
    unfold intAdd IsCInt INT_MIN INT_MAX
    rw [if_pos (by constructor <;> omega)]
  constructor
  · unfold next
    cases hsh : p.shuffle <;> simp [ha, hsize, sizeMod]
  · unfold previous
    simp [hb, hsize, sizeMod]

/-- C3, the failing input: a player constructed in a directory without
`.mp3` files and without state file (`currentTrack = -1`). -/
theorem empty_catalog_divides_by_zero_witness :
    (MusicPlayer.new wholeVolume [] none []).next calmEnv = .error Fault.divisionByZero ∧
      (MusicPlayer.new wholeVolume [] none []).previous calmEnv
        = .error Fault.divisionByZero :=
  empty_catalog_divides_by_zero (MusicPlayer.new wholeVolume [] none []) calmEnv rfl
    (by decide) (by decide)

/-! ## Failed loads -/

/-- Effect of `play` on the index the player is already positioned on. -/
theorem play_at_current (p : MusicPlayer F) (c : Int) (loadOk : Bool) (write : WriteOutcome)
    (h0 : 0 ≤ c)
    (h1 : c < (p.size : Int)) (h2 : c ≤ INT_MAX) :
    ∃ p1, play { p with currentTrack := c } c loadOk write = .ok p1 ∧ p1.currentTrack = c ∧
      p1.playlist = p.playlist ∧ p1.loop = p.loop ∧ p1.shuffle = p.shuffle ∧
      p1.volume = p.volume ∧
      (loadOk = false → p1.lastTrackFile = p.lastTrackFile ∧
        p1.console = p.console ++ [Msg.errorLoadingTrack]) := by
  obtain ⟨path, -, hplay⟩ := play_valid { p with currentTrack := c } c loadOk write h0 h1 h2
  rw [hplay]
  cases loadOk
  · exact ⟨_, rfl, rfl, rfl, rfl, rfl, rfl, fun _ => ⟨rfl, rfl⟩⟩
  · exact ⟨_, rfl, rfl, rfl, rfl, rfl, rfl, fun h => absurd h (by decide)⟩

/-- A failed load inside `play(i)` leaves the index and the state file as they
were. -/
theorem play_failed_load (p : MusicPlayer F) (i : Int) (write : WriteOutcome) (h0 : 0 ≤ i)
    (h1 : i < (p.size : Int)) (h2 : i ≤ INT_MAX) :
    ∃ p1, p.play i false write = .ok p1 ∧ p1.currentTrack = p.currentTrack ∧
      p1.lastTrackFile = p.lastTrackFile ∧ p1.console = p.console ++ [Msg.errorLoadingTrack] := by
  obtain ⟨path, -, hplay⟩ := play_valid p i false write h0 h1 h2
  rw [hplay]
  exact ⟨_, rfl, rfl, rfl, rfl⟩

/-- C6 (the code departs from it): `next()` and `previous()` assign
`currentTrack` before calling `play`.  On a catalog of `2 ≤ N ≤ INT_MAX`
tracks, from an index of the catalog and without shuffle, a failed load is
reported and the state file is not rewritten, but `currentTrack` has moved:
to `(i + 1) mod N` after `next()`, to `(i - 1 + N) mod N` after
`previous()`, both different from `i`. -/
theorem failed_load_moves_index (p : MusicPlayer F) (env : Env) (hload : env.loadOk = false)
    (hshuffle : p.shuffle = false) (h0 : 0 ≤ p.currentTrack)
    (hlt : p.currentTrack < (p.size : Int)) (h2 : 2 ≤ p.size) (hn : p.size ≤ 2147483647) :
    (∃ p1, p.next env = .ok p1 ∧
      p1.currentTrack = (p.currentTrack + 1) % (p.size : Int) ∧
      p1.currentTrack ≠ p.currentTrack ∧ p1.lastTrackFile = p.lastTrackFile ∧
      p1.console = p.console ++ [Msg.errorLoadingTrack]) ∧
    (∃ p2, p.previous env = .ok p2 ∧
      p2.currentTrack = (p.currentTrack - 1 + (p.size : Int)) % (p.size : Int) ∧
      p2.currentTrack ≠ p.currentTrack ∧ p2.lastTrackFile = p.lastTrackFile ∧
      p2.console = p.console ++ [Msg.errorLoadingTrack]) := by
  have hpos : (0 : Int) < (p.size : Int) := by omega
  have hmax : p.currentTrack + 1 ≤ INT_MAX := by unfold INT_MAX; omega
  have hnext : (p.currentTrack + 1) % (p.size : Int) ≠ p.currentTrack := by
    by_cases hlast : p.currentTrack + 1 = (p.size : Int)
    · rw [hlast, Int.emod_self]; omega
    · rw [Int.emod_eq_of_lt (by omega) (by omega)]; omega
  have hprev : (p.currentTrack - 1 + (p.size : Int)) % (p.size : Int) ≠ p.currentTrack := by
    by_cases hfirst : p.currentTrack = 0
    · rw [hfirst, Int.emod_eq_of_lt (by omega) (by omega)]; omega
    · rw [Int.add_emod_self, Int.emod_eq_of_lt (by omega) (by omega)]; omega
  constructor
  · obtain ⟨p1, hp, hc, -, -, -, -, hf⟩ :=
      play_at_current p ((p.currentTrack + 1) % (p.size : Int)) env.loadOk env.write
        (Int.emod_nonneg _ (by omega)) (Int.emod_lt_of_pos _ hpos)
        (by have := Int.emod_lt_of_pos (p.currentTrack + 1) hpos; unfold INT_MAX; omega)
    refine ⟨p1, ?_, hc, ?_, (hf hload).1, (hf hload).2⟩
    · rw [next_eq_play p env hshuffle h0 (by omega) hmax]; exact hp
    · rw [hc]; exact hnext
  · obtain ⟨p2, hp, hc, -, -, -, -, hf⟩ :=
      play_at_current p ((p.currentTrack - 1 + (p.size : Int)) % (p.size : Int)) env.loadOk env.write
        (Int.emod_nonneg _ (by omega)) (Int.emod_lt_of_pos _ hpos)
        (by have := Int.emod_lt_of_pos (p.currentTrack - 1 + (p.size : Int)) hpos
            unfold INT_MAX; omega)
    refine ⟨p2, ?_, hc, ?_, (hf hload).1, (hf hload).2⟩
    · rw [previous_eq_play p env h0 hlt (by unfold INT_MAX; omega) (by omega)
        (fun _ => by omega)]
      exact hp
    · rw [hc]; exact hprev

/-- C6, the failing input: three tracks, index 0, the load fails. -/
theorem failed_load_moves_index_witness :
    (∃ p1, (bulkPlayer 3 0).next brokenEnv = .ok p1 ∧
      p1.currentTrack = ((bulkPlayer 3 0).currentTrack + 1) % ((bulkPlayer 3 0).size : Int) ∧
      p1.currentTrack ≠ (bulkPlayer 3 0).currentTrack ∧
      p1.lastTrackFile = (bulkPlayer 3 0).lastTrackFile ∧
      p1.console = (bulkPlayer 3 0).console ++ [Msg.errorLoadingTrack]) ∧
    (∃ p2, (bulkPlayer 3 0).previous brokenEnv = .ok p2 ∧
      p2.currentTrack = ((bulkPlayer 3 0).currentTrack - 1 + ((bulkPlayer 3 0).size : Int))
        % ((bulkPlayer 3 0).size : Int) ∧
      p2.currentTrack ≠ (bulkPlayer 3 0).currentTrack ∧
      p2.lastTrackFile = (bulkPlayer 3 0).lastTrackFile ∧
      p2.console = (bulkPlayer 3 0).console ++ [Msg.errorLoadingTrack]) :=
  failed_load_moves_index (bulkPlayer 3 0) brokenEnv rfl rfl (by decide) (by decide)
    (by decide) (by decide)

/-! ## The index stays in the catalog -/

theorem tick_inCatalog (p : MusicPlayer F) (env : Env) (h : InCatalog p) :
    InCatalog (p.tick env) ∧ (p.tick env).playlist = p.playlist := by
  unfold tick
  split
  · exact ⟨h, rfl⟩
  · exact ⟨h, rfl⟩

theorem inCatalog_of_fields (p q : MusicPlayer F) (c : Int) (hc : q.currentTrack = c)
    (hp : q.playlist = p.playlist) (h0 : 0 ≤ c) (h1 : c < (p.size : Int)) : InCatalog q := by
  unfold InCatalog size
  unfold size at h1
  rw [hc, hp]
  exact ⟨h0, h1⟩

/-- A successful `play` positions the player on its argument. -/
theorem play_success (p : MusicPlayer F) (i : Int) (write : WriteOutcome) (h0 : 0 ≤ i)
    (hlt : i < (p.size : Int)) (hmax : i ≤ INT_MAX) :
    ∃ p1, p.play i true write = .ok p1 ∧ p1.currentTrack = i ∧ p1.playlist = p.playlist := by
  obtain ⟨path, -, hplay⟩ := play_valid p i true write h0 hlt hmax
  rw [if_pos rfl] at hplay
  rw [hplay]
  exact ⟨_, rfl, rfl, rfl⟩

/-- One call keeps the index in a catalog of at most `INT_MAX` tracks. -/
theorem applyOp_inCatalog (p : MusicPlayer F) (op : Op F) (env : Env) (hinv : InCatalog p)
    (hn : p.size ≤ 2147483647) (hop : op.WellTyped) :
    ∃ p1, applyOp p op env = .ok p1 ∧ InCatalog p1 ∧ p1.playlist = p.playlist := by
  have hpos : (0 : Int) < (p.size : Int) := by unfold InCatalog at hinv; omega
  obtain ⟨hi0, hi1⟩ := hinv
  cases op with
  | play k =>
    by_cases hk : k < 0 ∨ (p.size : Int) ≤ k
    · exact ⟨_, play_invalid p k env.loadOk env.write hop hk, ⟨hi0, hi1⟩, rfl⟩
    · obtain ⟨path, -, hplay⟩ :=
        play_valid p k env.loadOk env.write (by omega) (by omega) (by unfold INT_MAX; omega)
      simp only [applyOp]
      rw [hplay]
      cases env.loadOk
      · exact ⟨_, rfl, ⟨hi0, hi1⟩, rfl⟩
      · exact ⟨_, rfl, ⟨by show 0 ≤ k; omega, by show k < (p.size : Int); omega⟩, rfl⟩
  | pause =>
    refine ⟨_, rfl, ?_⟩
    unfold pause; split
    · exact ⟨⟨hi0, hi1⟩, rfl⟩
    · exact ⟨⟨hi0, hi1⟩, rfl⟩
  | resume =>
    refine ⟨_, rfl, ?_⟩
    unfold resume; split
    · exact ⟨⟨hi0, hi1⟩, rfl⟩
    · exact ⟨⟨hi0, hi1⟩, rfl⟩
  | stop => exact ⟨_, rfl, ⟨hi0, hi1⟩, rfl⟩
  | toggleLoop => exact ⟨_, rfl, ⟨hi0, hi1⟩, rfl⟩
  | toggleShuffle => exact ⟨_, rfl, ⟨hi0, hi1⟩, rfl⟩
  | setVolume v => exact ⟨_, rfl, ⟨hi0, hi1⟩, rfl⟩
  | next =>
    cases hsh : p.shuffle
    · have hr1 := Int.emod_lt_of_pos (p.currentTrack + 1) hpos
      obtain ⟨p1, hp, hc, hpl, -⟩ :=
        play_at_current p ((p.currentTrack + 1) % (p.size : Int)) env.loadOk env.write
          (Int.emod_nonneg _ (by omega)) hr1 (by unfold INT_MAX; omega)
      refine ⟨p1, ?_, inCatalog_of_fields p p1 _ hc hpl (Int.emod_nonneg _ (by omega)) hr1, hpl⟩
      show p.next env = _
      rw [next_eq_play p env hsh hi0 (by omega) (by unfold INT_MAX; omega)]
      exact hp
    · have hlt : env.rand.val % p.size < p.size := Nat.mod_lt _ (by omega)
      obtain ⟨p1, hp, hc, hpl, -⟩ :=
        play_at_current p ((env.rand.val % p.size : Nat) : Int) env.loadOk env.write
          (by omega) (by omega) (by unfold INT_MAX; omega)
      refine ⟨p1, ?_, inCatalog_of_fields p p1 _ hc hpl (by omega) (by omega), hpl⟩
      show p.next env = _
      rw [next_shuffle_eq_play p env hsh (by omega)]
      exact hp
  | previous =>
    have hr1 := Int.emod_lt_of_pos (p.currentTrack - 1 + (p.size : Int)) hpos
    obtain ⟨p1, hp, hc, hpl, -⟩ :=
      play_at_current p ((p.currentTrack - 1 + (p.size : Int)) % (p.size : Int)) env.loadOk env.write
        (Int.emod_nonneg _ (by omega)) hr1 (by unfold INT_MAX; omega)
    refine ⟨p1, ?_, inCatalog_of_fields p p1 _ hc hpl (Int.emod_nonneg _ (by omega)) hr1, hpl⟩
    show p.previous env = _
    rw [previous_eq_play p env hi0 hi1 (by unfold INT_MAX; omega) (by omega)
      (fun _ => by omega)]
    exact hp

/-- Every sequence of calls runs to its end and keeps the index in a catalog
of at most `INT_MAX` tracks. -/
theorem runOps_inCatalog (ops : List (Op F × Env)) :
    ∀ p : MusicPlayer F, InCatalog p → p.size ≤ 2147483647 →
      (∀ x ∈ ops, x.1.WellTyped) →
      ∃ p2, runOps ops p = .ok p2 ∧ InCatalog p2 ∧ p2.playlist = p.playlist := by
  induction ops with
  | nil => intro p hinv _ _; exact ⟨p, rfl, hinv, rfl⟩
  | cons x rest ih =>
    intro p hinv hn hops
    obtain ⟨op, env⟩ := x
    obtain ⟨htinv, htpl⟩ := tick_inCatalog p env hinv
    have htn : (p.tick env).size ≤ 2147483647 := by
      unfold size; rw [htpl]; exact hn
    obtain ⟨p1, h1, hinv1, hpl1⟩ :=
      applyOp_inCatalog (p.tick env) op env htinv htn (hops (op, env) (List.mem_cons_self _ _))
    have hn1 : p1.size ≤ 2147483647 := by
      unfold size; rw [hpl1, htpl]; exact hn
    obtain ⟨p2, h2, hinv2, hpl2⟩ :=
      ih p1 hinv1 hn1 (fun y hy => hops y (List.mem_cons_of_mem _ hy))
    refine ⟨p2, ?_, hinv2, by rw [hpl2, hpl1, htpl]⟩
    simp only [runOps, h1]
    exact h2

/-- C7 (amended): on a catalog of at most `INT_MAX = 2^31 - 1` tracks, after a
successful `play` (the index passed the check and the track loaded) and any
further sequence of `play`, `next` (shuffle on or off, any `rand()` value),
`previous`, `pause`, `resume`, `stop`, `toggleLoop`, `toggleShuffle` and
`setVolume` calls with `int` arguments and arbitrary load and write outcomes,
every call returns and `0 ≤ currentTrack < playlist.size()` holds at the
end. -/
theorem currentTrack_stays_in_catalog (p0 : MusicPlayer F) (i : Int) (write : WriteOutcome)
    (h0 : 0 ≤ i) (hlt : i < (p0.size : Int)) (hn : p0.size ≤ 2147483647)
    (ops : List (Op F × Env)) (hops : ∀ x ∈ ops, x.1.WellTyped) :
    ∃ p1 p2, p0.play i true write = .ok p1 ∧ runOps ops p1 = .ok p2 ∧
      0 ≤ p2.currentTrack ∧ p2.currentTrack < (p2.size : Int) := by
  obtain ⟨p1, hp1, hc1, hpl1⟩ := play_success p0 i write h0 hlt (by unfold INT_MAX; omega)
  have hinv1 : InCatalog p1 := inCatalog_of_fields p0 p1 i hc1 hpl1 h0 hlt
  have hn1 : p1.size ≤ 2147483647 := by unfold size; rw [hpl1]; exact hn
  obtain ⟨p2, h2, hinv2, -⟩ := runOps_inCatalog ops p1 hinv1 hn1 hops
  exact ⟨p1, p2, hp1, h2, hinv2.1, hinv2.2⟩

/-- C7, an instance of `currentTrack_stays_in_catalog`: five tracks, `play(2)`,
then a shuffled `next`, an out-of-range `play`, and a `previous` whose load
fails. -/
theorem currentTrack_stays_in_catalog_witness :
    ∃ p1 p2, fiveTracks.play 2 true WriteOutcome.truncated = .ok p1 ∧
      runOps [(Op.toggleShuffle, calmEnv), (Op.next, calmEnv), (Op.play 7, calmEnv),
        (Op.previous, brokenEnv)] p1 = .ok p2 ∧
      0 ≤ p2.currentTrack ∧ p2.currentTrack < (p2.size : Int) :=
  currentTrack_stays_in_catalog fiveTracks 2 WriteOutcome.truncated (by decide) (by decide)
    (by decide)
    [(Op.toggleShuffle, calmEnv), (Op.next, calmEnv), (Op.play 7, calmEnv),
      (Op.previous, brokenEnv)] (by decide)

/-- C7 as stated fails on a catalog of `2^31 + 1` tracks: after `play(0)`
succeeds, `previous()` computes the remainder `2^31`, which is not an `int`,
and leaves `currentTrack` at `INT_MIN`. -/
theorem currentTrack_leaves_catalog_past_INT_MAX :
    ∃ p1 p2, (bulkPlayer 2147483649 (-1)).play 0 true WriteOutcome.written = .ok p1 ∧
      runOps [(Op.previous, calmEnv)] p1 = .ok p2 ∧
      p2.currentTrack = -2147483648 ∧
      ¬ (0 ≤ p2.currentTrack ∧ p2.currentTrack < (p2.size : Int)) := by
  obtain ⟨p1, hp1, hc1, hpl1⟩ := play_success (bulkPlayer 2147483649 (-1)) 0
    WriteOutcome.written (by omega)
    (by rw [size_bulkPlayer]; omega) (by decide)
  have hs1 : p1.size = 2147483649 := by
    unfold size; rw [hpl1]; exact size_bulkPlayer 2147483649 (-1)
  have hprev := previous_narrowed p1 calmEnv (by rw [hc1]; decide)
    (by rw [hc1, hs1, toSizeT_of_neg _ (by omega) (by omega)]; unfold SIZE_MOD; rfl)
    (by rw [hs1]; omega)
  refine ⟨p1, { p1 with currentTrack := -2147483648,
                        console := p1.console ++ [Msg.invalidTrackIndex] }, hp1, ?_, ?_, ?_⟩
  · simp only [runOps, applyOp]
    have ht : p1.tick calmEnv = p1 := rfl
    rw [ht, hprev]
  · rfl
  · intro h
    have h1 := h.1
    revert h1
    show ¬ ((0 : Int) ≤ -2147483648)
    omega

/-! ## The loop flag -/

theorem sameOutcome_error (e : Fault) :
    SameOutcome (Except.error e : Except Fault (MusicPlayer F)) (Except.error e) := by
  simp [SameOutcome]

theorem play_loopBlind (p q : MusicPlayer F) (i : Int) (l : Bool) (w : WriteOutcome)
    (h : LoopBlind p q) : SameOutcome (p.play i l w) (q.play i l w) := by
  obtain ⟨h1, h2, h3, h4, h5, h6, h7⟩ := h
  unfold play size
  rw [← h1, ← h2]
  by_cases hc : i < 0 ∨ toSizeT i ≥ p.playlist.length
  · rw [if_pos hc, if_pos hc]
    simp [SameOutcome, LoopBlind, List.filter_append, h3, h4, h5, h6, h7]
  · rw [if_neg hc, if_neg hc]
    cases p.playlist[toSizeT i]? with
    | none => exact sameOutcome_error _
    | some path =>
      cases l <;>
        simp [SameOutcome, LoopBlind, Music.openFromFile, saveLastTrack, Music.setVolume,
          Music.play, List.filter_append, h3, h4, h5, h6, h7]

theorem loopBlind_setCurrentTrack (p q : MusicPlayer F) (c : Int) (h : LoopBlind p q) :
    LoopBlind { p with currentTrack := c } { q with currentTrack := c } := by
  obtain ⟨h1, h2, -, h4, h5, h6, h7⟩ := h
  exact ⟨h1, h2, rfl, h4, h5, h6, h7⟩

theorem assign_then_play_loopBlind (p q : MusicPlayer F) (l : Bool) (w : WriteOutcome)
    (h : LoopBlind p q) (x : Except Fault Nat) :
    SameOutcome
      (match x with
        | .error e => .error e
        | .ok r => play { p with currentTrack := toCInt r } (toCInt r) l w)
      (match x with
        | .error e => .error e
        | .ok r => play { q with currentTrack := toCInt r } (toCInt r) l w) := by
  cases x with
  | error e => exact sameOutcome_error e
  | ok r => exact play_loopBlind _ _ _ _ _ (loopBlind_setCurrentTrack p q _ h)

theorem next_loopBlind (p q : MusicPlayer F) (env : Env) (h : LoopBlind p q) :
    SameOutcome (p.next env) (q.next env) := by
  have hsz : q.size = p.size := by unfold size; rw [h.1]
  have hcur : q.currentTrack = p.currentTrack := h.2.2.1.symm
  have hsh : q.shuffle = p.shuffle := h.2.2.2.1.symm
  have hq : q.next env =
      if p.shuffle = true then
        match sizeMod (toSizeT (env.rand.val : Int)) p.size with
        | .error e => .error e
        | .ok r => play { q with currentTrack := toCInt r } (toCInt r) env.loadOk env.write
      else
        match intAdd p.currentTrack 1 with
        | .error e => .error e
        | .ok s =>
          match sizeMod (toSizeT s) p.size with
          | .error e => .error e
          | .ok r => play { q with currentTrack := toCInt r } (toCInt r) env.loadOk env.write := by
    rw [← hsz, ← hcur, ← hsh]; rfl
  rw [hq]
  unfold next
  by_cases hs : p.shuffle = true
  · rw [if_pos hs, if_pos hs]
    exact assign_then_play_loopBlind p q env.loadOk env.write h _
  · rw [if_neg hs, if_neg hs]
    cases intAdd p.currentTrack 1 with
    | error e => exact sameOutcome_error e
    | ok s => exact assign_then_play_loopBlind p q env.loadOk env.write h _

theorem previous_loopBlind (p q : MusicPlayer F) (env : Env) (h : LoopBlind p q) :
    SameOutcome (p.previous env) (q.previous env) := by
  have hsz : q.size = p.size := by unfold size; rw [h.1]
  have hcur : q.currentTrack = p.currentTrack := h.2.2.1.symm
  have hq : q.previous env =
      match intAdd p.currentTrack (-1) with
      | .error e => .error e
      | .ok d =>
        match sizeMod ((toSizeT d + p.size) % SIZE_MOD) p.size with
        | .error e => .error e
        | .ok r => play { q with currentTrack := toCInt r } (toCInt r) env.loadOk env.write := by
    rw [← hsz, ← hcur]; rfl
  rw [hq]
  unfold previous
  cases intAdd p.currentTrack (-1) with
  | error e => exact sameOutcome_error e
  | ok d => exact assign_then_play_loopBlind p q env.loadOk env.write h _

theorem tick_loopBlind (p q : MusicPlayer F) (env : Env) (h : LoopBlind p q) :
    LoopBlind (p.tick env) (q.tick env) := by
  obtain ⟨h1, h2, h3, h4, h5, h6, h7⟩ := h
  unfold tick
  split
  · exact ⟨h1, by show p.music.streamEnded = q.music.streamEnded; rw [h2], h3, h4, h5, h6, h7⟩
  · exact ⟨h1, h2, h3, h4, h5, h6, h7⟩

theorem dispatch_loopBlind (ops : FloatOps F) (p q : MusicPlayer F) (command : Char)
    (env : Env) (h : LoopBlind p q) :
    SameOutcome (dispatch ops p command env) (dispatch ops q command env) := by
  obtain ⟨h1, h2, h3, h4, h5, h6, h7⟩ := h
  unfold dispatch
  split_ifs
  · simp only [SameOutcome, pause, Music.getStatus, ← h2]
    split <;> simp [LoopBlind, List.filter_append, h1, h2, h3, h4, h5, h6, h7]
  · simp only [SameOutcome, resume, Music.getStatus, ← h2]
    split <;> simp [LoopBlind, List.filter_append, h1, h2, h3, h4, h5, h6, h7]
  · exact next_loopBlind p q env ⟨h1, h2, h3, h4, h5, h6, h7⟩
  · exact previous_loopBlind p q env ⟨h1, h2, h3, h4, h5, h6, h7⟩
  · simp [SameOutcome, LoopBlind, toggleLoop, List.filter_append, notLoopLine,
      h1, h2, h3, h4, h5, h6, h7]
  · simp [SameOutcome, LoopBlind, toggleShuffle, List.filter_append, notLoopLine,
      h1, h2, h3, h4, h5, h6, h7]
  · simp [SameOutcome, LoopBlind, setVolume, getVolume, Music.setVolume, List.filter_append,
      h1, h2, h3, h4, h5, h6, h7]
  · simp [SameOutcome, LoopBlind, setVolume, getVolume, Music.setVolume, List.filter_append,
      h1, h2, h3, h4, h5, h6, h7]
  · simp [SameOutcome, LoopBlind, List.filter_append, h1, h2, h3, h4, h5, h6, h7]

theorem mainLoop_loopBlind (ops : FloatOps F) (keys : List (Char × Env)) :
    ∀ p q : MusicPlayer F, LoopBlind p q →
      SameOutcome (mainLoop ops keys p) (mainLoop ops keys q) := by
  induction keys with
  | nil => intro p q h; exact h
  | cons key rest ih =>
    intro p q h
    obtain ⟨command, env⟩ := key
    have ht := tick_loopBlind p q env h
    have hd := dispatch_loopBlind ops (p.tick env) (q.tick env) command env ht
    unfold mainLoop
    split_ifs
    · exact ht
    · revert hd
      cases dispatch ops (p.tick env) command env <;>
        cases dispatch ops (q.tick env) command env <;>
        intro hd <;> dsimp only
      · exact hd
      · exact (show False from hd).elim
      · exact (show False from hd).elim
      · exact ih _ _ hd

/-- C9: the loop flag is never consulted.  For every player state, every
other value of its loop flag, and every sequence of key presses (with the
same load outcomes, `rand()` values and stream endings in both runs), the
two runs of the command loop either end with the same fault, or end in
states that agree on `currentTrack`, the shuffle flag, the volume, the
engine (so the playback status), the state file and the playlist, with the
same printed lines once the "Loop mode" lines are left out. -/
theorem loop_flag_never_consulted (ops : FloatOps F) (keys : List (Char × Env))
    (p : MusicPlayer F) (b : Bool) :
    SameOutcome (mainLoop ops keys p) (mainLoop ops keys { p with loop := b }) :=
  mainLoop_loopBlind ops keys p { p with loop := b } ⟨rfl, rfl, rfl, rfl, rfl, rfl, rfl⟩

end MusicPlayer

end MusicPlayerSpec
